import Mathlib

/-!
A verification development for the `htmlfeed.py` rawdog plugin
(`src/htmlfeed.py`): an HTML-to-RSS transformation driven by XPath
bindings.  The Python code is shallowly embedded: lxml element trees
become the mutual inductive `Element`/`ElementList` below (with lxml's
text/tail model of interleaved character data), XPath evaluation results
become the tagged variant `PyVal`, the response-metadata mapping becomes
an association list, and exception control flow becomes `Except`.
The external capabilities (lxml parsing/serialization, `strptime`,
`gzip`) are modelled by explicit executable functions; XPath compilation
and evaluation stay abstract as Lean functions, exactly as the Python
code treats compiled XPath objects as callables.
-/

/-! ## lxml element trees

An lxml `_Element` has a tag, attributes, the text that directly follows
its start tag (`.text`, `None` when absent), its child elements, and the
text that follows its end tag inside the parent (`.tail`).  `Element` and
`ElementList` mirror this exactly; character data between siblings lives
in the preceding sibling's tail.
-/

mutual

inductive Element : Type where
  | mk : String → List (String × String) → Option String → ElementList → Option String → Element

inductive ElementList : Type where
  | nil : ElementList
  | cons : Element → ElementList → ElementList

end

def Element.tag : Element → String
  | .mk t _ _ _ _ => t

def Element.attrs : Element → List (String × String)
  | .mk _ a _ _ _ => a

def Element.text : Element → Option String
  | .mk _ _ tx _ _ => tx

def Element.children : Element → ElementList
  | .mk _ _ _ cs _ => cs

def Element.tailText : Element → Option String
  | .mk _ _ _ _ tl => tl

def Element.withTail : Element → Option String → Element
  | .mk t a tx cs _, tl => .mk t a tx cs tl

def optStr : Option String → String
  | none => ""
  | some s => s

/-- Model of how lxml merges character data when splicing: appending text
`b` after existing (possibly absent) text `a`. -/
def optAppend : Option String → Option String → Option String
  | none, b => b
  | some x, none => some x
  | some x, some y => some (x ++ y)

def ElementList.append : ElementList → ElementList → ElementList
  | .nil, ys => ys
  | .cons x xs, ys => .cons x (ElementList.append xs ys)

/-- Append text to the tail of the last element of a (nonempty) list;
models lxml attaching the removed element's trailing text to the last
spliced child. -/
def ElementList.appendLastTail : ElementList → Option String → ElementList
  | .nil, _ => .nil
  | .cons c .nil, t => .cons (c.withTail (optAppend c.tailText t)) .nil
  | .cons c (.cons d ds), t => .cons c (ElementList.appendLastTail (.cons d ds) t)

/-! ## `lxml.etree.strip_tags`

`strip_tags(value, *striptags)` (htmlfeed.py line 274) removes every
descendant whose tag is in the banned list, splicing the removed
element's text, children and tail into its place.  The element `value`
itself is never removed.  The model processes a sibling list from the
left; `stripTagsList` returns the text that bubbles up in front of the
first surviving element (to be merged into the parent's text) together
with the surviving elements, whose tails absorb the character data of
removed siblings.
-/

mutual

def Element.stripTags (b : List String) : Element → Element
  | .mk t a tx cs tl =>
    let r := ElementList.stripTagsList b cs
    .mk t a (optAppend tx r.1) r.2 tl

def ElementList.stripTagsList (b : List String) : ElementList → Option String × ElementList
  | .nil => (none, .nil)
  | .cons c cs =>
    let c' := Element.stripTags b c
    let r := ElementList.stripTagsList b cs
    if b.contains c'.tag then
      match c'.children with
      | .nil => (optAppend c'.text (optAppend c'.tailText r.1), r.2)
      | .cons g gs =>
        (c'.text,
         ElementList.append
           (ElementList.appendLastTail (.cons g gs) (optAppend c'.tailText r.1)) r.2)
    else
      (none, .cons (c'.withTail (optAppend c'.tailText r.1)) r.2)

end

/-! ## `lxml.etree.strip_attributes`

Removes every attribute with a banned name from the element and all of
its descendants (htmlfeed.py line 276). -/

mutual

def Element.stripAttrs (b : List String) : Element → Element
  | .mk t a tx cs tl =>
    .mk t (a.filter (fun p => !b.contains p.1)) tx (ElementList.stripAttrsList b cs) tl

def ElementList.stripAttrsList (b : List String) : ElementList → ElementList
  | .nil => .nil
  | .cons c cs => .cons (Element.stripAttrs b c) (ElementList.stripAttrsList b cs)

end

/-! ## Serialization (`lxml.html.tostring(e, encoding='unicode')`)

Serializing an element renders its start tag, escaped text, children,
end tag, and then its own escaped tail — this tail inclusion is what
preserves inter-sibling text in `_import`'s `convert`. -/

def escapeChar (c : Char) : String :=
  if c = '&' then "&amp;"
  else if c = '<' then "&lt;"
  else if c = '>' then "&gt;"
  else String.mk [c]

def escapeText (s : String) : String :=
  String.join (s.toList.map escapeChar)

def escapeAttrChar (c : Char) : String :=
  if c = '&' then "&amp;"
  else if c = '<' then "&lt;"
  else if c = '>' then "&gt;"
  else if c = '"' then "&quot;"
  else String.mk [c]

def escapeAttrVal (s : String) : String :=
  String.join (s.toList.map escapeAttrChar)

def attrsString (a : List (String × String)) : String :=
  String.join (a.map (fun p => " " ++ p.1 ++ "=\"" ++ escapeAttrVal p.2 ++ "\""))

mutual

def Element.serialize : Element → String
  | .mk t a tx cs tl =>
    "<" ++ t ++ attrsString a ++ ">" ++ escapeText (optStr tx) ++
      ElementList.serializeAll cs ++ "</" ++ t ++ ">" ++ escapeText (optStr tl)

def ElementList.serializeAll : ElementList → String
  | .nil => ""
  | .cons c cs => Element.serialize c ++ ElementList.serializeAll cs

end

/-! ## The sanitization step of `HTML2RSSProcessor._import` (lines 265-277)

`value = deepcopy(value)` makes the operation mutation-free; in the pure
model the copy is the identity.  Tags are stripped only when the banned
list is nonempty (`if striptags:`), likewise attributes. -/

def sanitizeElem (striptags stripattrs : List String) (e : Element) : Element :=
  let e1 := if striptags.isEmpty then e else Element.stripTags striptags e
  if stripattrs.isEmpty then e1 else Element.stripAttrs stripattrs e1

/-- Model of `convert` (line 267): the concatenated serializations of the
node's child elements (`ele.iterchildren()`); the node's own tag and its
leading `.text` are not rendered, but each child's tail is. -/
def convertEl (e : Element) : String :=
  ElementList.serializeAll e.children

/-! ## XPath evaluation results

An XPath callable returns (with `smart_strings=False`) either `None`
(the `nop` default binding), a plain string, an element, a list of
elements/strings, or some other object such as a float; the code only
ever observes the latter through `repr`, so the `other` variant carries
that rendering. -/

mutual

inductive PyVal : Type where
  | pynone : PyVal
  | str : String → PyVal
  | elem : Element → PyVal
  | list : PyValList → PyVal
  | other : String → PyVal

inductive PyValList : Type where
  | nil : PyValList
  | cons : PyVal → PyValList → PyValList

end

/-! ## `HTML2RSSProcessor._import` (lines 265-281) -/

mutual

def importVal (striptags stripattrs : List String) : PyVal → String
  | .pynone => ""
  | .str s => s
  | .elem e => convertEl (sanitizeElem striptags stripattrs e)
  | .list vs => importValList striptags stripattrs vs
  | .other r => r

def importValList (striptags stripattrs : List String) : PyValList → String
  | .nil => ""
  | .cons v vs => importVal striptags stripattrs v ++ importValList striptags stripattrs vs

end

/-! ## `HTML2RSSProcessor._textualize` (lines 284-294)

`_textualize` may return a unicode string or Python `None` (the `.text`
of an element with no leading text), and the `u''.join` over a list
raises `TypeError` when a member textualizes to `None`.  `TextResult`
captures the three observable outcomes. -/

inductive TextResult : Type where
  | ok : String → TextResult
  | noneVal : TextResult
  | typeError : TextResult
deriving DecidableEq

def TextResult.appendR : TextResult → TextResult → TextResult
  | .ok a, .ok b => .ok (a ++ b)
  | _, _ => .typeError

mutual

def textualize : PyVal → TextResult
  | .pynone => .ok ""
  | .str s => .ok s
  | .elem e =>
    match e.text with
    | some s => .ok s
    | none => .noneVal
  | .list vs => textualizeList vs
  | .other r => .ok r

def textualizeList : PyValList → TextResult
  | .nil => .ok ""
  | .cons v vs => TextResult.appendR (textualize v) (textualizeList vs)

end

def TextResult.toOpt : TextResult → Option String
  | .ok s => some s
  | .noneVal => none
  | .typeError => none

/-! ## Python exceptions

`URLError` is referenced unqualified at lines 207 and 252 although only
`import urllib2` appears, so evaluating it raises
`NameError("global name 'URLError' is not defined")`. -/

inductive PyErr : Type where
  | nameError : String → PyErr
  | typeError : PyErr
  | valueError : String → PyErr
deriving DecidableEq

def TextResult.toExcept : TextResult → Except PyErr (Option String)
  | .ok s => .ok (some s)
  | .noneVal => .ok none
  | .typeError => .error .typeError

/-- Python truthiness of a string-or-None value: `None` and the empty
string are falsy, every other string (whitespace included) is truthy. -/
def truthyOpt : Option String → Bool
  | none => false
  | some s => !(s = "")

/-! ## Dates

`datetime` values as used here: naive timestamps. -/

structure DateTime where
  year : Nat
  month : Nat
  day : Nat
  hour : Nat
  minute : Nat
  second : Nat
deriving DecidableEq

/-- Modelled external capability: the default fields `strptime` starts
from (1900-01-01 00:00:00). -/
def strptimeDefault : DateTime := ⟨1900, 1, 1, 0, 0, 0⟩

def takeDigits : Nat → List Char → List Char × List Char
  | 0, l => ([], l)
  | _ + 1, [] => ([], [])
  | n + 1, c :: rest =>
    if c.isDigit then
      let r := takeDigits n rest
      (c :: r.1, r.2)
    else ([], c :: rest)

def digitsToNat (l : List Char) : Nat :=
  l.foldl (fun acc c => acc * 10 + (c.toNat - 48)) 0

/-- Read a numeric `strptime` field of at most `maxd` digits whose value
must lie in `[lo, hi]`. -/
def numField (maxd lo hi : Nat) (data : List Char) : Option (Nat × List Char) :=
  let r := takeDigits maxd data
  if r.1.isEmpty then none
  else
    let v := digitsToNat r.1
    if lo ≤ v ∧ v ≤ hi then some (v, r.2) else none

/-- Modelled external capability: `datetime.strptime(dataString, fmtString)`
for the numeric directives `%Y %m %d %H %M %S` and literal characters;
any mismatch, unsupported directive, or unconverted trailing data is a
`ValueError`, i.e. `none`. -/
def strptimeGo : List Char → List Char → DateTime → Option DateTime
  | data, [], dt => if data.isEmpty then some dt else none
  | data, '%' :: 'Y' :: fr, dt =>
    match numField 4 0 9999 data with
    | some r => strptimeGo r.2 fr { dt with year := r.1 }
    | none => none
  | data, '%' :: 'm' :: fr, dt =>
    match numField 2 1 12 data with
    | some r => strptimeGo r.2 fr { dt with month := r.1 }
    | none => none
  | data, '%' :: 'd' :: fr, dt =>
    match numField 2 1 31 data with
    | some r => strptimeGo r.2 fr { dt with day := r.1 }
    | none => none
  | data, '%' :: 'H' :: fr, dt =>
    match numField 2 0 23 data with
    | some r => strptimeGo r.2 fr { dt with hour := r.1 }
    | none => none
  | data, '%' :: 'M' :: fr, dt =>
    match numField 2 0 59 data with
    | some r => strptimeGo r.2 fr { dt with minute := r.1 }
    | none => none
  | data, '%' :: 'S' :: fr, dt =>
    match numField 2 0 59 data with
    | some r => strptimeGo r.2 fr { dt with second := r.1 }
    | none => none
  | data, '%' :: '%' :: fr, dt =>
    match data with
    | '%' :: dr => strptimeGo dr fr dt
    | _ => none
  | _, '%' :: _ :: _, _ => none
  | [], _ :: _, _ => none
  | d :: dr, c :: fr, dt => if d = c then strptimeGo dr fr dt else none

def strptime (dataString fmtString : String) : Option DateTime :=
  strptimeGo dataString.toList fmtString.toList strptimeDefault

def pad2 (n : Nat) : String :=
  if n < 10 then "0" ++ toString n else toString n

def pad4 (n : Nat) : String :=
  if n < 10 then "000" ++ toString n
  else if n < 100 then "00" ++ toString n
  else if n < 1000 then "0" ++ toString n
  else toString n

/-- Zeller's congruence; index 0 is Saturday. -/
def dayNames : List String := ["Sat", "Sun", "Mon", "Tue", "Wed", "Thu", "Fri"]

def monthNames : List String :=
  ["Jan", "Feb", "Mar", "Apr", "May", "Jun", "Jul", "Aug", "Sep", "Oct", "Nov", "Dec"]

def dayOfWeekName (dt : DateTime) : String :=
  let mm := if dt.month < 3 then dt.month + 12 else dt.month
  let yy := if dt.month < 3 then dt.year - 1 else dt.year
  let kq := yy % 100
  let j := yy / 100
  dayNames.getD ((dt.day + 13 * (mm + 1) / 5 + kq + kq / 4 + j / 4 + 5 * j) % 7) ""

/-- One `strftime` directive under the C locale; `%z` of a naive
datetime renders as the empty string in Python 2. -/
def strfDir (c : Char) (dt : DateTime) : String :=
  if c = 'Y' then pad4 dt.year
  else if c = 'm' then pad2 dt.month
  else if c = 'd' then pad2 dt.day
  else if c = 'H' then pad2 dt.hour
  else if c = 'M' then pad2 dt.minute
  else if c = 'S' then pad2 dt.second
  else if c = 'a' then dayOfWeekName dt
  else if c = 'b' then monthNames.getD (dt.month - 1) ""
  else if c = 'z' then ""
  else if c = '%' then "%"
  else "%" ++ String.mk [c]

/-- Modelled external capability: `datetime.strftime` under the C locale. -/
def strftimeGo : List Char → DateTime → String
  | [], _ => ""
  | '%' :: c :: rest, dt => strfDir c dt ++ strftimeGo rest dt
  | ['%'], _ => "%"
  | c :: rest, dt => String.mk [c] ++ strftimeGo rest dt

def strftime (fmt : String) (dt : DateTime) : String :=
  strftimeGo fmt.toList dt

/-! ## `setlocale` context manager (lines 59-67)

The process-wide locale is threaded as explicit state.  The context
manager saves the current locale, sets the requested one (which may fail
with `locale.Error` for an unsupported name, modelled by the `valid`
predicate), runs the body, and restores the saved locale in a `finally`
block — also when the body or the inner `setlocale` raises.  The
`LOCALE_LOCK` critical section is invisible in this single-threaded
embedding. -/

def setlocaleRun {α : Type} (valid : String → Bool) (name : String) (st : String)
    (body : String → Except String α × String) : Except String α × String :=
  let saved := st
  if valid name then
    let r := body name
    (r.1, saved)
  else
    (Except.error "locale.Error: unsupported locale setting", saved)

/-! ## `parseDate` (lines 69-75)

The body evaluates `datetime.strptime(fmt[1], datestr)`: the format and
data arguments are swapped, and only the second character of the format
is used as the data.  `fmt[1]` raises `IndexError` when the format has
fewer than two characters.  The bare `except:` turns every failure into
`None`. -/

def parseDateSt (valid : String → Bool) (localename fmt datestr : String) (st : String) :
    Option DateTime × String :=
  let r := setlocaleRun valid localename st (fun cur =>
    (match fmt.toList.get? 1 with
     | none => Except.error "IndexError: string index out of range"
     | some c =>
       match strptime (String.mk [c]) datestr with
       | some d => Except.ok d
       | none => Except.error "ValueError: time data does not match format", cur))
  (match r.1 with
   | .ok d => some d
   | .error _ => none, r.2)

def parseDate (localename fmt datestr : String) : Option DateTime :=
  (parseDateSt (fun _ => true) localename fmt datestr "C").1

/-- Lines 226-232 of `_parse`: textualized date text is parsed only when
truthy, and the result (if any) is rendered under the C locale in the
fixed output representation; otherwise the date field becomes the empty
string. -/
def resolveDateText (localename fmt : String) (dateTxt : Option String) : String :=
  let d := if truthyOpt dateTxt then parseDate localename fmt (optStr dateTxt) else none
  match d with
  | some dd => strftime "%a, %d %b %Y %H:%M:%S %z" dd
  | none => ""

/-! ## MD5 (`hashlib.md5`, lines 219-221)

A faithful executable MD5 over byte lists (bytes as `Nat < 256`),
operating on 32-bit words represented as `Nat` reduced mod `2^32`. -/

def w32 (n : Nat) : Nat := n % 4294967296

def w32max : Nat := 4294967295

def add32 (a b : Nat) : Nat := w32 (a + b)

/-- Rotate a 32-bit word left by `s` (for `x < 2^32`, `0 < s < 32`). -/
def rotl32 (x s : Nat) : Nat := w32 (x * 2 ^ s) + x / 2 ^ (32 - s)

def md5K : List Nat :=
  [0xd76aa478, 0xe8c7b756, 0x242070db, 0xc1bdceee,
   0xf57c0faf, 0x4787c62a, 0xa8304613, 0xfd469501,
   0x698098d8, 0x8b44f7af, 0xffff5bb1, 0x895cd7be,
   0x6b901122, 0xfd987193, 0xa679438e, 0x49b40821,
   0xf61e2562, 0xc040b340, 0x265e5a51, 0xe9b6c7aa,
   0xd62f105d, 0x02441453, 0xd8a1e681, 0xe7d3fbc8,
   0x21e1cde6, 0xc33707d6, 0xf4d50d87, 0x455a14ed,
   0xa9e3e905, 0xfcefa3f8, 0x676f02d9, 0x8d2a4c8a,
   0xfffa3942, 0x8771f681, 0x6d9d6122, 0xfde5380c,
   0xa4beea44, 0x4bdecfa9, 0xf6bb4b60, 0xbebfbc70,
   0x289b7ec6, 0xeaa127fa, 0xd4ef3085, 0x04881d05,
   0xd9d4d039, 0xe6db99e5, 0x1fa27cf8, 0xc4ac5665,
   0xf4292244, 0x432aff97, 0xab9423a7, 0xfc93a039,
   0x655b59c3, 0x8f0ccc92, 0xffeff47d, 0x85845dd1,
   0x6fa87e4f, 0xfe2ce6e0, 0xa3014314, 0x4e0811a1,
   0xf7537e82, 0xbd3af235, 0x2ad7d2bb, 0xeb86d391]

def md5S : List Nat :=
  [7, 12, 17, 22, 7, 12, 17, 22, 7, 12, 17, 22, 7, 12, 17, 22,
   5, 9, 14, 20, 5, 9, 14, 20, 5, 9, 14, 20, 5, 9, 14, 20,
   4, 11, 16, 23, 4, 11, 16, 23, 4, 11, 16, 23, 4, 11, 16, 23,
   6, 10, 15, 21, 6, 10, 15, 21, 6, 10, 15, 21, 6, 10, 15, 21]

/-- Round function and message index for round `i`. -/
def md5FG (i b c d : Nat) : Nat × Nat :=
  if i < 16 then ((b &&& c) ||| ((w32max - b) &&& d), i)
  else if i < 32 then ((d &&& b) ||| ((w32max - d) &&& c), (5 * i + 1) % 16)
  else if i < 48 then (b ^^^ c ^^^ d, (3 * i + 5) % 16)
  else (c ^^^ (b ||| (w32max - d)), (7 * i) % 16)

def md5Step (m : List Nat) (st : Nat × Nat × Nat × Nat) (i : Nat) : Nat × Nat × Nat × Nat :=
  let fg := md5FG i st.2.1 st.2.2.1 st.2.2.2
  let f2 := w32 (fg.1 + st.1 + md5K.getD i 0 + m.getD fg.2 0)
  (st.2.2.2, add32 st.2.1 (rotl32 f2 (md5S.getD i 0)), st.2.1, st.2.2.1)

def wordLE (l : List Nat) : Nat :=
  match l with
  | [b0, b1, b2, b3] => b0 + 256 * b1 + 65536 * b2 + 16777216 * b3
  | _ => 0

def leBytes (w : Nat) : List Nat :=
  [w % 256, w / 256 % 256, w / 65536 % 256, w / 16777216 % 256]

def md5Chunk (st : Nat × Nat × Nat × Nat) (chunk : List Nat) : Nat × Nat × Nat × Nat :=
  let m := (List.range 16).map (fun j => wordLE ((chunk.drop (4 * j)).take 4))
  let r := (List.range 64).foldl (md5Step m) st
  (add32 st.1 r.1, add32 st.2.1 r.2.1, add32 st.2.2.1 r.2.2.1, add32 st.2.2.2 r.2.2.2)

def md5init : Nat × Nat × Nat × Nat := (0x67452301, 0xefcdab89, 0x98badcfe, 0x10325476)

def lenBytes64 (bits : Nat) : List Nat :=
  leBytes (w32 bits) ++ leBytes (w32 (bits / 4294967296))

def md5pad (msg : List Nat) : List Nat :=
  msg ++ [128] ++ List.replicate ((119 - msg.length % 64) % 64) 0 ++
    lenBytes64 (msg.length * 8 % 18446744073709551616)

def chunks64Go : Nat → List Nat → List (List Nat)
  | 0, _ => []
  | _ + 1, [] => []
  | fuel + 1, x :: xs => (x :: xs).take 64 :: chunks64Go fuel ((x :: xs).drop 64)

/-- Split into 64-byte blocks; the fuel (the list length) bounds the
recursion, and each step consumes at least one byte, so every block is
produced. -/
def chunks64 (l : List Nat) : List (List Nat) :=
  chunks64Go l.length l

def md5 (msg : List Nat) : List Nat :=
  let st := (chunks64 (md5pad msg)).foldl md5Chunk md5init
  leBytes st.1 ++ leBytes st.2.1 ++ leBytes st.2.2.1 ++ leBytes st.2.2.2

/-- Byte view of a string as a list of code points; coincides with the
byte encoding for ASCII text (used for output byte counts and as the
value-level view of digests).  The fallible encoding `md5.update`
actually performs on unicode text is `asciiEncode` below. -/
def strBytes (s : String) : List Nat :=
  s.toList.map Char.toNat

def bytesToStr (l : List Nat) : String :=
  String.mk (l.map Char.ofNat)

/-! ## GUID derivation (lines 217-224) -/

def guidOf (v : Option String) : Option (List Nat) :=
  if truthyOpt v then some (md5 (strBytes (optStr v))) else none

def guidStrOf (v : Option String) : Option String :=
  (guidOf v).map bytesToStr

/-- Python 2 implicit ASCII encoding, as `md5.update(rawguidtext)`
performs it on a unicode string at line 220: the byte encoding when
every character is ASCII, `UnicodeEncodeError` (`none`) otherwise. -/
def asciiEncode (s : String) : Option (List Nat) :=
  if s.toList.all (fun c => c.toNat < 128) then some (s.toList.map Char.toNat) else none

/-- Modelled external capability: lxml's XML-compatibility check on a
Python 2 byte string assigned to an element's `.text`: every byte must
be ASCII, and NUL and control bytes other than tab, newline and
carriage return are rejected with
`ValueError: All strings must be XML compatible`. -/
def xmlSafeByte (b : Nat) : Bool :=
  b < 128 && (32 ≤ b || b = 9 || b = 10 || b = 13)

def xmlSafeBytes (l : List Nat) : Bool :=
  l.all xmlSafeByte

/-! ## Response metadata

`info` (a header mapping) as an association list with dict-style get,
delete and assignment. -/

def infoGet (i : List (String × String)) (k d : String) : String :=
  match i with
  | [] => d
  | (k', v) :: rest => if k' = k then v else infoGet rest k d

def infoDel (i : List (String × String)) (k : String) : List (String × String) :=
  match i with
  | [] => []
  | (k', v) :: rest => if k' = k then infoDel rest k else (k', v) :: infoDel rest k

def infoSet (i : List (String × String)) (k v : String) : List (String × String) :=
  (k, v) :: infoDel i k

/-! ## Responses and the wrapper -/

structure Response where
  url : String
  code : Nat
  msg : String
  infoData : List (String × String)
  body : List Nat

/-- `ResponseWrapper` (lines 79-100): copies url, code and msg from the
original and lets the wrapper produce the new buffer and metadata. -/
structure Wrapped where
  url : String
  code : Nat
  msg : String
  buffer : List Nat
  info : List (String × String)

def Wrapped.geturl (w : Wrapped) : String := w.url

def Wrapped.getcode (w : Wrapped) : Nat := w.code

def Wrapped.getinfo (w : Wrapped) : List (String × String) := w.info

def mkResponseWrapper (original : Response)
    (wrapper : Response → List (String × String) → Except PyErr (List Nat × List (String × String))) :
    Except PyErr Wrapped :=
  (wrapper original original.infoData).map
    (fun r => ⟨original.url, original.code, original.msg, r.1, r.2⟩)

/-! ## The resolved configuration

The record of bindings `_parse` works with after lines 124-179: compiled
XPath callables are Lean functions, flags stay the raw strings the code
compares against `'true'`. -/

structure Params where
  channelTitle : Element → PyVal
  channelDescription : Element → PyVal
  channelDescTextonly : String
  channelLink : Element → PyVal
  allowempty : String
  item : Element → List Element
  itemTitle : Element → PyVal
  itemDescription : Element → PyVal
  itemDescTextonly : String
  itemLink : Element → PyVal
  itemGuid : Element → PyVal
  itemDate : Element → PyVal
  dateLocale : String
  dateFormat : String
  cleanTags : List String
  cleanAttrs : List String

/-! ## Document assembly -/

def ElementList.appendOne : ElementList → Element → ElementList
  | .nil, e => .cons e .nil
  | .cons c cs, e => .cons c (ElementList.appendOne cs e)

def Element.appendChild : Element → Element → Element
  | .mk t a tx cs tl, ch => .mk t a tx (cs.appendOne ch) tl

/-- `_addIf` (lines 257-262): adds `<tag>value</tag>` to the parent when
the value is truthy (non-`None`, nonempty — whitespace included). -/
def addIf (parent : Element) (tagName : String) (value : Option String) : Element :=
  match value with
  | none => parent
  | some s =>
    if s = "" then parent
    else parent.appendChild (Element.mk tagName [] (some s) .nil none)

def emptyElem (t : String) : Element := Element.mk t [] none .nil none

/-- The guid path of the item loop modelled with its real failure modes
(lines 218-224 and 240): for truthy guid text, `md5.update` ASCII-encodes
the text (raising `UnicodeEncodeError`, a `ValueError` subclass, on
non-ASCII text), the raw 16-byte `digest()` is taken, and
`_addIf(rssitem, 'guid', guid)` assigns those bytes — a truthy value —
to the new element's text, where lxml rejects any byte string that is
not XML-compatible; neither error is caught before the handler at line
251, so either aborts the whole transformation.  For falsy guid text
`guid` is `None` and `_addIf` adds nothing. -/
def emitGuid (parent : Element) (rawguid : Option String) : Except PyErr Element :=
  if truthyOpt rawguid then
    match asciiEncode (optStr rawguid) with
    | none => .error (.valueError "UnicodeEncodeError: ascii codec cannot encode")
    | some bytes =>
      let digest := md5 bytes
      if xmlSafeBytes digest then
        .ok (parent.appendChild (Element.mk "guid" [] (some (bytesToStr digest)) .nil none))
      else
        .error (.valueError "All strings must be XML compatible")
  else
    .ok parent

/-- Normalized item title as the loop at line 211 computes it. -/
def itemTitleVal (p : Params) (hi : Element) : Option String :=
  (textualize (p.itemTitle hi)).toOpt

/-- Normalized item description (lines 212-215). -/
def itemDescVal (p : Params) (hi : Element) : Option String :=
  if p.itemDescTextonly = "true" then (textualize (p.itemDescription hi)).toOpt
  else some (importVal p.cleanTags p.cleanAttrs (p.itemDescription hi))

/-- The `<item>` element assembled at lines 236-241 for one matched
article element. -/
def builtItem (p : Params) (hi : Element) : Element :=
  let it := emptyElem "item"
  let it := addIf it "title" (itemTitleVal p hi)
  let it := addIf it "description" (itemDescVal p hi)
  let it := addIf it "link" ((textualize (p.itemLink hi)).toOpt)
  let it := addIf it "guid" (guidStrOf ((textualize (p.itemGuid hi)).toOpt))
  addIf it "pubDate"
    (some (resolveDateText p.dateLocale p.dateFormat ((textualize (p.itemDate hi)).toOpt)))

/-- One iteration of the item loop (lines 209-241): extract the fields,
and append an `<item>` to the channel when title or description is
truthy.  A `TypeError` from `_textualize` aborts the whole parse. -/
def itemStep (p : Params) (channel : Element) (hi : Element) : Except PyErr Element :=
  match (textualize (p.itemTitle hi)).toExcept with
  | .error e => .error e
  | .ok title =>
    match (if p.itemDescTextonly = "true" then (textualize (p.itemDescription hi)).toExcept
           else .ok (some (importVal p.cleanTags p.cleanAttrs (p.itemDescription hi)))) with
    | .error e => .error e
    | .ok description =>
      match (textualize (p.itemLink hi)).toExcept with
      | .error e => .error e
      | .ok _link =>
        match (textualize (p.itemGuid hi)).toExcept with
        | .error e => .error e
        | .ok _rawguid =>
          match (textualize (p.itemDate hi)).toExcept with
          | .error e => .error e
          | .ok _dateTxt =>
            if truthyOpt title || truthyOpt description then
              .ok (channel.appendChild (builtItem p hi))
            else
              .ok channel

def foldItems (p : Params) : Element → List Element → Except PyErr Element
  | ch, [] => .ok ch
  | ch, hi :: rest =>
    match itemStep p ch hi with
    | .error e => .error e
    | .ok ch' => foldItems p ch' rest

/-- Lines 192-241: build the `<channel>` tree.  The zero-item check at
lines 205-207 tries to raise `URLError`, an unbound name, so what is
actually raised there is a `NameError` that carries neither the error
message nor the source URL. -/
def buildChannel (p : Params) (htmltree : Element) : Except PyErr Element :=
  match (textualize (p.channelTitle htmltree)).toExcept with
  | .error e => .error e
  | .ok t =>
    match (if p.channelDescTextonly = "true" then (textualize (p.channelDescription htmltree)).toExcept
           else .ok (some (importVal p.cleanTags p.cleanAttrs (p.channelDescription htmltree)))) with
    | .error e => .error e
    | .ok d =>
      match (textualize (p.channelLink htmltree)).toExcept with
      | .error e => .error e
      | .ok l =>
        let channel := addIf (addIf (addIf (emptyElem "channel") "title" t) "description" d) "link" l
        let founditems := p.item htmltree
        if p.allowempty ≠ "true" ∧ founditems.length = 0 then
          Except.error (PyErr.nameError "URLError")
        else
          foldItems p channel founditems

/-! ## Serialization of the feed and the whole `_parse` -/

def serializeRss (channel : Element) : List Nat :=
  strBytes ("<?xml version='1.0' encoding='utf-8'?>\n" ++
    Element.serialize (Element.mk "rss" [("version", "2.0")] none (.cons channel .nil) none))

/-- External capabilities `_parse` depends on: HTML parsing of the body
bytes, `make_links_absolute`, and gzip decoding. -/
structure ParseEnv where
  htmlParse : List Nat → Element
  mkAbs : String → Element → Element
  gunzip : List Nat → List Nat

/-- Lines 182-186: the body is decompressed and the `Content-Encoding`
entry dropped exactly when that entry equals the string `'gzip'`. -/
def decodeBody (gunzip : List Nat → List Nat) (info : List (String × String))
    (body : List Nat) : List Nat × List (String × String) :=
  if infoGet info "Content-Encoding" "" = "gzip" then (gunzip body, infoDel info "Content-Encoding")
  else (body, info)

/-- The body of `_parse`'s `try` block (lines 122-250). -/
def parseCore (env : ParseEnv) (p : Params) (original : Response)
    (info : List (String × String)) : Except PyErr (List Nat × List (String × String)) :=
  let r := decodeBody env.gunzip info original.body
  let htmltree := env.mkAbs original.url (env.htmlParse r.1)
  match buildChannel p htmltree with
  | .error e => .error e
  | .ok channel =>
    let buf := serializeRss channel
    .ok (buf,
      infoSet (infoSet r.2 "Content-Length" (toString buf.length))
        "Content-Type" "application/rss+xml;charset=UTF-8")

/-- `_parse` (lines 121-254): any exception is caught at line 251, and
re-raising `URLError(...)` at line 252 itself hits the unbound name, so
every failure surfaces as `NameError("URLError")`. -/
def parseFun (env : ParseEnv) (p : Params) (original : Response)
    (info : List (String × String)) : Except PyErr (List Nat × List (String × String)) :=
  match parseCore env p original info with
  | .ok r => .ok r
  | .error _ => .error (PyErr.nameError "URLError")

/-- `_modifyResponse` (line 113): wrap the response with `_parse`. -/
def modifyResponse (env : ParseEnv) (p : Params) (response : Response) : Except PyErr Wrapped :=
  mkResponseWrapper response (fun o i => parseFun env p o i)

def ElementList.countTag (t : String) : ElementList → Nat
  | .nil => 0
  | .cons c cs => (if c.tag = t then 1 else 0) + ElementList.countTag t cs

def Element.countItems (e : Element) : Nat :=
  ElementList.countTag "item" e.children

/-! ## Measures for the sanitization proofs

`innerChars` is the total character data of a subtree (the element's
leading text plus, for each child in order, its own character data and
its tail); `innerClean` states that no strict descendant carries a
banned tag. -/

def optChars : Option String → List Char
  | none => []
  | some s => s.data

mutual

def Element.innerChars : Element → List Char
  | .mk _ _ tx cs _ => optChars tx ++ ElementList.charsSum cs

def ElementList.charsSum : ElementList → List Char
  | .nil => []
  | .cons c cs => c.innerChars ++ optChars c.tailText ++ ElementList.charsSum cs

end

mutual

def Element.innerClean (b : List String) : Element → Bool
  | .mk _ _ _ cs _ => ElementList.allClean b cs

def ElementList.allClean (b : List String) : ElementList → Bool
  | .nil => true
  | .cons c cs => !b.contains c.tag && Element.innerClean b c && ElementList.allClean b cs

end

/-! ## Concrete fixtures for the counterexamples and witnesses -/

def fxB : Element := .mk "b" [] (some "bold") .nil none

def fxP : Element := .mk "p" [] (some "x") .nil none

/-- The fragment `<div><b>bold</b><p>x</p></div>`. -/
def fxDiv : Element := .mk "div" [] none (.cons fxB (.cons fxP .nil)) none

def fxEnv : ParseEnv := ⟨fun _ => emptyElem "html", fun _ e => e, fun _ => []⟩

/-- A configuration whose bindings all evaluate to `None` (`nop`), with
an item path matching nothing, as-written flag defaults. -/
def fxParams : Params :=
  ⟨fun _ => .pynone, fun _ => .pynone, "false", fun _ => .pynone, "false", fun _ => [],
   fun _ => .pynone, fun _ => .pynone, "false", fun _ => .pynone, fun _ => .pynone,
   fun _ => .pynone, "C", "", [], []⟩

def fxAllow : Params := { fxParams with allowempty := "true" }

def fxResp : Response :=
  ⟨"http://feed.example/", 200, "OK",
   [("Content-Encoding", "deflate"), ("X-Custom", "1")], []⟩

def fxArticle : Element := emptyElem "article"

/-- Item whose title normalizes to the whitespace-only string. -/
def fxWsParams : Params := { fxAllow with itemTitle := fun _ => .str " " }

def fxTParams : Params := { fxAllow with itemTitle := fun _ => .str "Hello" }

def fxChT : Element :=
  (itemStep fxTParams (emptyElem "channel") fxArticle).toOption.getD (emptyElem "channel")

def fxWrapped : Wrapped :=
  (modifyResponse fxEnv fxAllow fxResp).toOption.getD ⟨"", 0, "", [], []⟩

/-! ## Basic lemmas -/

theorem strData_append (a b : String) : (a ++ b).data = a.data ++ b.data := by
  cases a
  cases b
  rfl

theorem optAppend_none (a : Option String) : optAppend a none = a := by
  cases a <;> rfl

theorem optChars_optAppend (a b : Option String) :
    optChars (optAppend a b) = optChars a ++ optChars b := by
  cases a <;> cases b <;> simp [optAppend, optChars, strData_append]

theorem optChars_none : optChars none = [] := rfl

theorem Element.withTail_tag (e : Element) (t : Option String) : (e.withTail t).tag = e.tag := by
  cases e
  rfl

theorem Element.withTail_tailText (e : Element) (t : Option String) :
    (e.withTail t).tailText = t := by
  cases e
  rfl

theorem Element.withTail_self (e : Element) : e.withTail e.tailText = e := by
  cases e
  rfl

theorem Element.withTail_innerChars (e : Element) (t : Option String) :
    (e.withTail t).innerChars = e.innerChars := by
  cases e
  rfl

theorem Element.withTail_innerClean (b : List String) (e : Element) (t : Option String) :
    (e.withTail t).innerClean b = e.innerClean b := by
  cases e
  rfl

theorem Element.stripTags_tag (b : List String) (e : Element) :
    (Element.stripTags b e).tag = e.tag := by
  cases e
  rfl

theorem Element.stripTags_tailText (b : List String) (e : Element) :
    (Element.stripTags b e).tailText = e.tailText := by
  cases e
  rfl

theorem Element.stripAttrs_tag (b : List String) (e : Element) :
    (Element.stripAttrs b e).tag = e.tag := by
  cases e
  rfl

theorem Element.stripAttrs_tailText (b : List String) (e : Element) :
    (Element.stripAttrs b e).tailText = e.tailText := by
  cases e
  rfl

theorem Element.innerChars_decomp (e : Element) :
    e.innerChars = optChars e.text ++ ElementList.charsSum e.children := by
  cases e
  rfl

theorem Element.innerClean_decomp (b : List String) (e : Element) :
    e.innerClean b = ElementList.allClean b e.children := by
  cases e
  rfl

theorem TextResult.toOpt_of_toExcept_ok (t : TextResult) (v : Option String)
    (h : t.toExcept = Except.ok v) : t.toOpt = v := by
  cases t <;> simp [TextResult.toExcept, TextResult.toOpt] at h ⊢ <;> exact h

/-- C7: every date-parsing operation that switches the process-wide
locale restores the previously active locale on every exit path — for an
arbitrary body (which may fail or itself move the locale), for an
invalid locale name (where the inner `setlocale` raises), and in
particular for every call to `parseDate`, the final locale state equals
the state before the call. -/
theorem c7_locale_restored :
    ∀ (α : Type) (valid : String → Bool) (name st : String)
      (body : String → Except String α × String),
      (setlocaleRun valid name st body).2 = st ∧
      ∀ localename fmt datestr, (parseDateSt valid localename fmt datestr st).2 = st := by
  intro α valid name st body
  constructor
  · simp only [setlocaleRun]
    split <;> rfl
  · intro localename fmt datestr
    simp only [parseDateSt, setlocaleRun]
    split <;> rfl

/-- C9: the body is decompressed, and the compression entry removed,
exactly when the `Content-Encoding` metadata value is the literal string
`gzip`; for every other value the body bytes and the metadata (the
`Content-Encoding` entry included) pass through unchanged. -/
theorem c9_gzip_exact_match :
    ∀ (gz : List Nat → List Nat) (info : List (String × String)) (body : List Nat),
      (infoGet info "Content-Encoding" "" = "gzip" →
        decodeBody gz info body = (gz body, infoDel info "Content-Encoding")) ∧
      (infoGet info "Content-Encoding" "" ≠ "gzip" →
        decodeBody gz info body = (body, info)) := by
  intro gz info body
  constructor <;> intro h <;> simp [decodeBody, h]

theorem c9_gzip_exact_match_witness :
    infoGet [("Content-Encoding", "gzip")] "Content-Encoding" "" = "gzip" ∧
    decodeBody (fun _ => [1]) [("Content-Encoding", "gzip")] [0] = ([1], []) ∧
    infoGet [("Content-Encoding", "GZIP")] "Content-Encoding" "" ≠ "gzip" ∧
    decodeBody (fun _ => [1]) [("Content-Encoding", "GZIP")] [0] =
      ([0], [("Content-Encoding", "GZIP")]) := by
  refine ⟨rfl, ?_, by decide, ?_⟩
  · exact (c9_gzip_exact_match (fun _ => [1]) [("Content-Encoding", "gzip")] [0]).1 rfl
  · exact (c9_gzip_exact_match (fun _ => [1]) [("Content-Encoding", "GZIP")] [0]).2 (by decide)

/-- C10: textualizing a single element returns the element's direct
`.text`, which is Python `None` (not the empty string) when the element
has no leading text — such a value is falsy and `_addIf` emits nothing
for it; and textualizing a value that is neither `None`, string, element
nor list yields its `repr`. -/
theorem c10_textualize_element :
    ∀ (e : Element) (r s : String) (parent : Element) (tg : String),
      (e.text = none →
        textualize (PyVal.elem e) = TextResult.noneVal ∧
        truthyOpt (textualize (PyVal.elem e)).toOpt = false ∧
        addIf parent tg (textualize (PyVal.elem e)).toOpt = parent) ∧
      (e.text = some s → textualize (PyVal.elem e) = TextResult.ok s) ∧
      textualize (PyVal.other r) = TextResult.ok r := by
  intro e r s parent tg
  refine ⟨?_, ?_, rfl⟩
  · intro h
    simp [textualize, h, TextResult.toOpt, truthyOpt, addIf]
  · intro h
    simp [textualize, h]

theorem c10_textualize_element_witness :
    Element.text (Element.mk "p" [] none .nil none) = none ∧
    textualize (PyVal.elem (Element.mk "p" [] none .nil none)) = TextResult.noneVal ∧
    textualize (PyVal.elem (Element.mk "p" [] (some "hi") .nil none)) = TextResult.ok "hi" ∧
    textualize (PyVal.other "1.0") = TextResult.ok "1.0" := by
  refine ⟨rfl, ?_, ?_, ?_⟩
  · exact ((c10_textualize_element (Element.mk "p" [] none .nil none) "1.0" ""
      (emptyElem "x") "t").1 rfl).1
  · exact (c10_textualize_element (Element.mk "p" [] (some "hi") .nil none) "1.0" "hi"
      (emptyElem "x") "t").2.1 rfl
  · exact (c10_textualize_element (Element.mk "p" [] none .nil none) "1.0" ""
      (emptyElem "x") "t").2.2

/-- C2: the date round-trip fails on the code.  Formatting the timestamp
2024-10-02 15:04:05 with format `%Y-%m-%d %H:%M:%S` under locale C and
feeding the string back through the Date Resolver with the same
locale/format yields the empty string, not the canonical rendering
`Wed, 02 Oct 2024 15:04:05 `, because `parseDate` calls
`datetime.strptime(fmt[1], datestr)` with its arguments swapped (and
only the second character of the format); the same data parses fine when
the arguments are passed the right way around. -/
theorem c2_date_roundtrip_bug :
    strftime "%Y-%m-%d %H:%M:%S" ⟨2024, 10, 2, 15, 4, 5⟩ = "2024-10-02 15:04:05" ∧
    parseDate "C" "%Y-%m-%d %H:%M:%S" "2024-10-02 15:04:05" = none ∧
    resolveDateText "C" "%Y-%m-%d %H:%M:%S"
        (some (strftime "%Y-%m-%d %H:%M:%S" ⟨2024, 10, 2, 15, 4, 5⟩)) = "" ∧
    strftime "%a, %d %b %Y %H:%M:%S %z" ⟨2024, 10, 2, 15, 4, 5⟩ =
      "Wed, 02 Oct 2024 15:04:05 " ∧
    strptime "2024-10-02 15:04:05" "%Y-%m-%d %H:%M:%S" = some ⟨2024, 10, 2, 15, 4, 5⟩ ∧
    ("" : String) ≠ "Wed, 02 Oct 2024 15:04:05 " := by
  refine ⟨by decide, by decide, by decide, by decide, by decide, by decide⟩

theorem md5_length (msg : List Nat) : (md5 msg).length = 16 := by
  simp [md5, leBytes]

set_option maxRecDepth 8000 in
/-- C5: the hash itself is deterministic and 128-bit, but the code does
not emit the digest as the item's identifier.  For the non-empty guid
text `a1` the raw `md5.digest()` byte string (line 221) contains
non-ASCII bytes (0x8a, 0x8b, …) and control bytes (0x03, 0x08), so the
assignment of those bytes to the lxml text node performed by
`_addIf(rssitem, 'guid', guid)` at line 240 raises `ValueError` and
aborts the whole transformation instead of emitting a guid element; for
non-ASCII guid text `md5.update` at line 220 already aborts with
`UnicodeEncodeError`.  Only the falsy half of the claim holds: empty or
absent guid text adds no guid element and does not abort. -/
theorem c5_guid_emission_bug :
    asciiEncode "a1" = some [97, 49] ∧
    md5 [97, 49] = [138, 139, 183, 205, 52, 58, 162, 173, 153, 183, 215, 98, 3, 8, 87, 162] ∧
    (md5 [97, 49]).length = 16 ∧
    xmlSafeBytes (md5 [97, 49]) = false ∧
    emitGuid (emptyElem "item") (some "a1") =
      Except.error (PyErr.valueError "All strings must be XML compatible") ∧
    asciiEncode "á" = none ∧
    emitGuid (emptyElem "item") (some "á") =
      Except.error (PyErr.valueError "UnicodeEncodeError: ascii codec cannot encode") ∧
    emitGuid (emptyElem "item") (some "") = Except.ok (emptyElem "item") ∧
    emitGuid (emptyElem "item") none = Except.ok (emptyElem "item") := by
  refine ⟨rfl, by decide, md5_length _, by decide, rfl, rfl, rfl, rfl, rfl⟩

/-- C3: with an item path matching zero elements and allowempty=false
the transformation fails — but not with an empty-feed error carrying the
source URL: `raise URLError(...)` at line 207 hits the unbound name
`URLError` (only `import urllib2` exists), and the re-raise at line 252
hits it again, so the surfaced failure is `NameError("URLError")` with
no URL attached; with allowempty=true the transformation succeeds and
the channel holds zero items. -/
theorem c3_empty_items_bug :
    parseFun fxEnv fxParams fxResp fxResp.infoData = Except.error (PyErr.nameError "URLError") ∧
    (buildChannel fxAllow (emptyElem "html")).map Element.countItems = Except.ok 0 ∧
    (parseFun fxEnv fxAllow fxResp fxResp.infoData).isOk = true := by
  refine ⟨rfl, rfl, rfl⟩

theorem infoGet_del_other (i : List (String × String)) (k k' d : String) (h : k' ≠ k) :
    infoGet (infoDel i k) k' d = infoGet i k' d := by
  induction i with
  | nil => rfl
  | cons p rest ih =>
    obtain ⟨pk, pv⟩ := p
    by_cases hp : pk = k
    · have hk : k ≠ k' := fun q => h q.symm
      simp [infoDel, infoGet, hp, hk, ih]
    · by_cases hq : pk = k'
      · simp [infoDel, infoGet, hp, hq, h]
      · simp [infoDel, infoGet, hp, hq, ih]

theorem infoGet_del_same (i : List (String × String)) (k d : String) :
    infoGet (infoDel i k) k d = d := by
  induction i with
  | nil => rfl
  | cons p rest ih =>
    by_cases hp : p.1 = k <;> simp [infoDel, infoGet, hp, ih]

theorem infoGet_set_same (i : List (String × String)) (k v d : String) :
    infoGet (infoSet i k v) k d = v := by
  simp [infoSet, infoGet]

theorem infoGet_set_other (i : List (String × String)) (k v k' d : String) (h : k' ≠ k) :
    infoGet (infoSet i k v) k' d = infoGet i k' d := by
  simp only [infoSet, infoGet]
  rw [if_neg (fun q => h q.symm)]
  exact infoGet_del_other i k k' d h

/-- C6 (amended): for every successfully wrapped response, the wrapper
preserves the original's status code, URL and status message; the
metadata's `Content-Length` equals the serialized output's byte count
and `Content-Type` the feed media type; every metadata key other than
`Content-Length`, `Content-Type` and `Content-Encoding` is looked up
unchanged; and the `Content-Encoding` entry is removed exactly when its
original value was the literal string `gzip` — for any other value
(e.g. `deflate`) it is left untouched. -/
theorem c6_wrapper_frame :
    ∀ (env : ParseEnv) (p : Params) (orig : Response) (w : Wrapped),
      modifyResponse env p orig = Except.ok w →
      w.url = orig.url ∧ w.code = orig.code ∧ w.msg = orig.msg ∧
      infoGet w.info "Content-Length" "" = toString w.buffer.length ∧
      infoGet w.info "Content-Type" "" = "application/rss+xml;charset=UTF-8" ∧
      (∀ k d, k ≠ "Content-Length" → k ≠ "Content-Type" → k ≠ "Content-Encoding" →
        infoGet w.info k d = infoGet orig.infoData k d) ∧
      (infoGet orig.infoData "Content-Encoding" "" = "gzip" →
        infoGet w.info "Content-Encoding" "" = "") ∧
      (infoGet orig.infoData "Content-Encoding" "" ≠ "gzip" →
        ∀ d, infoGet w.info "Content-Encoding" d = infoGet orig.infoData "Content-Encoding" d) := by
  intro env p orig w hok
  simp only [modifyResponse, mkResponseWrapper, parseFun, parseCore] at hok
  cases hb : buildChannel p (env.mkAbs orig.url
      (env.htmlParse (decodeBody env.gunzip orig.infoData orig.body).1)) with
  | error e => rw [hb] at hok; simp [Except.map] at hok
  | ok channel =>
    rw [hb] at hok
    simp only [Except.map] at hok
    cases hok
    refine ⟨rfl, rfl, rfl, ?_, ?_, ?_, ?_, ?_⟩
    · rw [infoGet_set_other _ _ _ _ _ (by decide), infoGet_set_same]
    · rw [infoGet_set_same]
    · intro k d hkl hkt hke
      rw [infoGet_set_other _ _ _ _ _ hkt, infoGet_set_other _ _ _ _ _ hkl]
      by_cases hg : infoGet orig.infoData "Content-Encoding" "" = "gzip" <;>
        simp [decodeBody, hg, infoGet_del_other _ _ _ _ hke]
    · intro hg
      rw [infoGet_set_other _ _ _ _ _ (by decide), infoGet_set_other _ _ _ _ _ (by decide)]
      simp [decodeBody, hg, infoGet_del_same]
    · intro hg d
      rw [infoGet_set_other _ _ _ _ _ (by decide), infoGet_set_other _ _ _ _ _ (by decide)]
      simp [decodeBody, hg]

/-- C6 counterexample: a response whose metadata carries
`Content-Encoding: deflate` is wrapped successfully, yet the
compression-indicator entry is still present (value `deflate`) in the
wrapper's metadata, contradicting the claim that the field is removed
whenever it was present. -/
theorem c6_counterexample :
    infoGet fxResp.infoData "Content-Encoding" "" = "deflate" ∧
    (modifyResponse fxEnv fxAllow fxResp).map (fun w => infoGet w.info "Content-Encoding" "") =
      Except.ok "deflate" := by
  exact ⟨rfl, rfl⟩

theorem c6_wrapper_frame_witness :
    modifyResponse fxEnv fxAllow fxResp = Except.ok fxWrapped ∧
    fxWrapped.url = fxResp.url ∧
    infoGet fxWrapped.info "Content-Type" "" = "application/rss+xml;charset=UTF-8" ∧
    infoGet fxWrapped.info "X-Custom" "" = "1" := by
  refine ⟨rfl, ?_, ?_, ?_⟩
  · exact (c6_wrapper_frame fxEnv fxAllow fxResp fxWrapped rfl).1
  · exact (c6_wrapper_frame fxEnv fxAllow fxResp fxWrapped rfl).2.2.2.2.1
  · exact (c6_wrapper_frame fxEnv fxAllow fxResp fxWrapped rfl).2.2.2.2.2.1
      "X-Custom" "" (by decide) (by decide) (by decide)

/-- C4 (amended): when the item loop succeeds on an item element, an
`<item>` is appended to the channel if and only if at least one of the
normalized title and description is truthy, i.e. a non-`None`, nonempty
string — Python truthiness, under which a whitespace-only string counts
as content, so an item whose title is whitespace-only is still emitted;
an item with only a title or only a description is present, one with
both fields empty/`None` is absent. -/
theorem c4_item_survival :
    ∀ (p : Params) (channel hi ch' : Element),
      itemStep p channel hi = Except.ok ch' →
      ((truthyOpt (itemTitleVal p hi) || truthyOpt (itemDescVal p hi)) = true →
        ch' = channel.appendChild (builtItem p hi)) ∧
      ((truthyOpt (itemTitleVal p hi) || truthyOpt (itemDescVal p hi)) = false →
        ch' = channel) := by
  intro p channel hi ch' hok
  unfold itemStep at hok
  split at hok
  · exact absurd hok (by simp)
  case _ title heq1 =>
  split at hok
  · exact absurd hok (by simp)
  case _ description heq2 =>
  split at hok
  · exact absurd hok (by simp)
  case _ _ heq3 =>
  split at hok
  · exact absurd hok (by simp)
  case _ _ heq4 =>
  split at hok
  · exact absurd hok (by simp)
  case _ _ heq5 =>
  have hteq : itemTitleVal p hi = title :=
    TextResult.toOpt_of_toExcept_ok _ _ heq1
  have hdeq : itemDescVal p hi = description := by
    unfold itemDescVal
    by_cases hd : p.itemDescTextonly = "true"
    · rw [if_pos hd] at heq2 ⊢
      exact TextResult.toOpt_of_toExcept_ok _ _ heq2
    · rw [if_neg hd] at heq2 ⊢
      exact (Except.ok.injEq _ _ ▸ heq2 : _)
  rw [hteq, hdeq]
  split at hok
  case _ hcond =>
    cases hok
    exact ⟨fun _ => rfl, fun hfalse => absurd (hcond.symm.trans hfalse) (by simp)⟩
  case _ hcond =>
    cases hok
    refine ⟨fun htrue => ?_, fun _ => rfl⟩
    exact absurd htrue (by simp [Bool.not_eq_true] at hcond ⊢; exact hcond)

/-- C4 counterexample: an item whose title normalizes to the
whitespace-only string `" "` and whose description normalizes to the
empty string is emitted (the channel gains one `<item>` child), although
the claim says an item whose title and description both normalize to
empty or whitespace-only strings is absent from the output. -/
theorem c4_counterexample :
    itemTitleVal fxWsParams fxArticle = some " " ∧
    itemDescVal fxWsParams fxArticle = some "" ∧
    (itemStep fxWsParams (emptyElem "channel") fxArticle).map Element.countItems =
      Except.ok 1 := by
  exact ⟨rfl, rfl, rfl⟩

theorem c4_item_survival_witness :
    itemStep fxTParams (emptyElem "channel") fxArticle = Except.ok fxChT ∧
    (truthyOpt (itemTitleVal fxTParams fxArticle) ||
      truthyOpt (itemDescVal fxTParams fxArticle)) = true ∧
    fxChT = (emptyElem "channel").appendChild (builtItem fxTParams fxArticle) := by
  refine ⟨rfl, by decide, ?_⟩
  exact (c4_item_survival fxTParams (emptyElem "channel") fxArticle fxChT rfl).1 (by decide)

theorem ElementList.charsSum_append : ∀ (xs ys : ElementList),
    (ElementList.append xs ys).charsSum = xs.charsSum ++ ys.charsSum
  | .nil, ys => by simp [ElementList.append, ElementList.charsSum]
  | .cons c cs, ys => by
    simp [ElementList.append, ElementList.charsSum, ElementList.charsSum_append cs ys,
      List.append_assoc]

theorem ElementList.charsSum_appendLastTail :
    ∀ (c : Element) (cs : ElementList) (t : Option String),
      (ElementList.appendLastTail (.cons c cs) t).charsSum =
        (ElementList.cons c cs).charsSum ++ optChars t
  | c, .nil, t => by
    simp [ElementList.appendLastTail, ElementList.charsSum, Element.withTail_innerChars,
      Element.withTail_tailText, optChars_optAppend, List.append_assoc]
  | c, .cons d ds, t => by
    simp [ElementList.appendLastTail, ElementList.charsSum,
      ElementList.charsSum_appendLastTail d ds t, List.append_assoc]

mutual

theorem Element.stripTags_innerChars (b : List String) :
    ∀ (e : Element), (Element.stripTags b e).innerChars = e.innerChars
  | .mk t a tx cs tl => by
    have hcs := ElementList.stripTagsList_charsSum b cs
    simp [Element.stripTags, Element.innerChars, optChars_optAppend, List.append_assoc, hcs]

theorem ElementList.stripTagsList_charsSum (b : List String) :
    ∀ (cs : ElementList),
      optChars (ElementList.stripTagsList b cs).1 ++
        (ElementList.stripTagsList b cs).2.charsSum = cs.charsSum
  | .nil => by simp [ElementList.stripTagsList, ElementList.charsSum, optChars]
  | .cons c cs => by
    have ihc := Element.stripTags_innerChars b c
    have ihl := ElementList.stripTagsList_charsSum b cs
    simp only [ElementList.stripTagsList]
    cases hb : b.contains (Element.stripTags b c).tag with
    | false =>
      simp only [hb, Bool.false_eq_true, if_false]
      calc optChars (none : Option String) ++
            (ElementList.cons
              ((Element.stripTags b c).withTail
                (optAppend (Element.stripTags b c).tailText (ElementList.stripTagsList b cs).1))
              (ElementList.stripTagsList b cs).2).charsSum
          = (Element.stripTags b c).innerChars ++
              (optChars (Element.stripTags b c).tailText ++
                (optChars (ElementList.stripTagsList b cs).1 ++
                  (ElementList.stripTagsList b cs).2.charsSum)) := by
            simp [ElementList.charsSum, optChars_none, Element.withTail_innerChars,
              Element.withTail_tailText, optChars_optAppend, List.append_assoc]
        _ = c.innerChars ++ (optChars c.tailText ++ cs.charsSum) := by
            rw [ihc, ihl, Element.stripTags_tailText]
        _ = (ElementList.cons c cs).charsSum := by
            simp [ElementList.charsSum, List.append_assoc]
    | true =>
      simp only [hb, if_true]
      cases hc : (Element.stripTags b c).children with
      | nil =>
        simp only [hc]
        calc optChars (optAppend (Element.stripTags b c).text
                (optAppend (Element.stripTags b c).tailText (ElementList.stripTagsList b cs).1)) ++
              (ElementList.stripTagsList b cs).2.charsSum
            = optChars (Element.stripTags b c).text ++
                (optChars (Element.stripTags b c).tailText ++
                  (optChars (ElementList.stripTagsList b cs).1 ++
                    (ElementList.stripTagsList b cs).2.charsSum)) := by
              simp [optChars_optAppend, List.append_assoc]
          _ = (optChars (Element.stripTags b c).text ++
                ElementList.charsSum (Element.stripTags b c).children) ++
                (optChars (Element.stripTags b c).tailText ++
                  (optChars (ElementList.stripTagsList b cs).1 ++
                    (ElementList.stripTagsList b cs).2.charsSum)) := by
              rw [hc]
              simp [ElementList.charsSum]
          _ = c.innerChars ++ (optChars c.tailText ++ cs.charsSum) := by
              rw [← Element.innerChars_decomp, ihc, ihl, Element.stripTags_tailText]
          _ = (ElementList.cons c cs).charsSum := by
              simp [ElementList.charsSum, List.append_assoc]
      | cons g gs =>
        simp only [hc]
        calc optChars (Element.stripTags b c).text ++
              (ElementList.append
                (ElementList.appendLastTail (.cons g gs)
                  (optAppend (Element.stripTags b c).tailText (ElementList.stripTagsList b cs).1))
                (ElementList.stripTagsList b cs).2).charsSum
            = optChars (Element.stripTags b c).text ++
                ((ElementList.cons g gs).charsSum ++
                  (optChars (Element.stripTags b c).tailText ++
                    (optChars (ElementList.stripTagsList b cs).1 ++
                      (ElementList.stripTagsList b cs).2.charsSum))) := by
              rw [ElementList.charsSum_append, ElementList.charsSum_appendLastTail]
              simp [optChars_optAppend, List.append_assoc]
          _ = (optChars (Element.stripTags b c).text ++
                ElementList.charsSum (Element.stripTags b c).children) ++
                (optChars (Element.stripTags b c).tailText ++
                  (optChars (ElementList.stripTagsList b cs).1 ++
                    (ElementList.stripTagsList b cs).2.charsSum)) := by
              rw [hc]
              simp [List.append_assoc]
          _ = c.innerChars ++ (optChars c.tailText ++ cs.charsSum) := by
              rw [← Element.innerChars_decomp, ihc, ihl, Element.stripTags_tailText]
          _ = (ElementList.cons c cs).charsSum := by
              simp [ElementList.charsSum, List.append_assoc]

end

mutual

theorem Element.stripAttrs_innerChars (b : List String) :
    ∀ (e : Element), (Element.stripAttrs b e).innerChars = e.innerChars
  | .mk t a tx cs tl => by
    have hcs := ElementList.stripAttrsList_charsSum b cs
    simp [Element.stripAttrs, Element.innerChars, hcs]

theorem ElementList.stripAttrsList_charsSum (b : List String) :
    ∀ (cs : ElementList), (ElementList.stripAttrsList b cs).charsSum = cs.charsSum
  | .nil => by simp [ElementList.stripAttrsList]
  | .cons c cs => by
    have ihc := Element.stripAttrs_innerChars b c
    have ihl := ElementList.stripAttrsList_charsSum b cs
    simp [ElementList.stripAttrsList, ElementList.charsSum, ihc, ihl,
      Element.stripAttrs_tailText]

end

/-- C1 (amended): with textonly=false, sanitizing a selected element
unwraps every banned tag while preserving the subtree's entire character
data in the tree (`innerChars` is invariant), and the returned string is
the concatenated serialization of the sanitized node's child elements —
the node's own tag is excluded, and so is the node's leading text
(`.text`), where both its own direct text and text unwrapped out of a
banned tag in leading position end up; only text located in or after the
first surviving child element appears in the output string. -/
theorem c1_sanitize_preserves_content :
    ∀ (ts as : List String) (e : Element),
      importVal ts as (PyVal.elem e) = convertEl (sanitizeElem ts as e) ∧
      (sanitizeElem ts as e).innerChars = e.innerChars ∧
      convertEl (sanitizeElem ts as e) =
        ElementList.serializeAll (sanitizeElem ts as e).children := by
  intro ts as e
  refine ⟨rfl, ?_, rfl⟩
  unfold sanitizeElem
  by_cases hts : ts.isEmpty <;> by_cases has : as.isEmpty <;>
    simp [hts, has, Element.stripTags_innerChars, Element.stripAttrs_innerChars]

/-- C1 counterexample: in `<div><b>bold</b><p>x</p></div>` with `b`
banned, the text `bold` sat inside a banned tag, yet the sanitized
serialization of the `div` is exactly `<p>x</p>` — the unwrapped text
landed in the div's leading-text position, which `convert` never
renders, so it does not appear in the output string, contradicting the
claim that such text is preserved in the output. -/
theorem c1_counterexample :
    fxB.tag = "b" ∧ fxB.text = some "bold" ∧
    importVal ["b"] [] (PyVal.elem fxDiv) = "<p>x</p>" ∧
    ¬ List.IsInfix "bold".toList "<p>x</p>".toList := by
  refine ⟨rfl, rfl, rfl, by decide⟩

theorem ElementList.allClean_append : ∀ (b : List String) (xs ys : ElementList),
    (ElementList.append xs ys).allClean b = (xs.allClean b && ys.allClean b)
  | b, .nil, ys => by simp [ElementList.append, ElementList.allClean]
  | b, .cons c cs, ys => by
    simp [ElementList.append, ElementList.allClean, ElementList.allClean_append b cs ys,
      Bool.and_assoc]

theorem ElementList.allClean_appendLastTail :
    ∀ (b : List String) (c : Element) (cs : ElementList) (t : Option String),
      (ElementList.appendLastTail (.cons c cs) t).allClean b = (ElementList.cons c cs).allClean b
  | b, c, .nil, t => by
    simp [ElementList.appendLastTail, ElementList.allClean, Element.withTail_tag,
      Element.withTail_innerClean]
  | b, c, .cons d ds, t => by
    simp [ElementList.appendLastTail, ElementList.allClean,
      ElementList.allClean_appendLastTail b d ds t]

mutual

theorem Element.stripTags_innerClean (b : List String) :
    ∀ (e : Element), (Element.stripTags b e).innerClean b = true
  | .mk t a tx cs tl => by
    have hcs := ElementList.stripTagsList_allClean b cs
    simp [Element.stripTags, Element.innerClean, hcs]

theorem ElementList.stripTagsList_allClean (b : List String) :
    ∀ (cs : ElementList), (ElementList.stripTagsList b cs).2.allClean b = true
  | .nil => by simp [ElementList.stripTagsList, ElementList.allClean]
  | .cons c cs => by
    have ihc := Element.stripTags_innerClean b c
    have ihl := ElementList.stripTagsList_allClean b cs
    simp only [ElementList.stripTagsList]
    cases hb : b.contains (Element.stripTags b c).tag with
    | false =>
      simp only [hb, Bool.false_eq_true, if_false]
      have hb2 : (Element.stripTags b c).tag ∉ b := by simpa using hb
      simp [ElementList.allClean, Element.withTail_tag, Element.withTail_innerClean, hb2, ihc, ihl]
    | true =>
      simp only [hb, if_true]
      cases hc : (Element.stripTags b c).children with
      | nil =>
        simp only [hc]
        exact ihl
      | cons g gs =>
        simp only [hc]
        have hch : (ElementList.cons g gs).allClean b = true := by
          rw [← hc, ← Element.innerClean_decomp]
          exact ihc
        simp [ElementList.allClean_append, ElementList.allClean_appendLastTail, hch, ihl]

end

mutual

theorem Element.stripTags_of_innerClean (b : List String) :
    ∀ (e : Element), e.innerClean b = true → Element.stripTags b e = e
  | .mk t a tx cs tl => by
    intro h
    have hcs := ElementList.stripTagsList_of_allClean b cs (by
      simpa [Element.innerClean] using h)
    simp [Element.stripTags, hcs, optAppend_none]

theorem ElementList.stripTagsList_of_allClean (b : List String) :
    ∀ (cs : ElementList), cs.allClean b = true → ElementList.stripTagsList b cs = (none, cs)
  | .nil => by intro h; rfl
  | .cons c cs => by
    intro h
    simp only [ElementList.allClean, Bool.and_eq_true, Bool.not_eq_true'] at h
    obtain ⟨⟨hct, hcc⟩, hcs⟩ := h
    have ihc := Element.stripTags_of_innerClean b c hcc
    have ihl := ElementList.stripTagsList_of_allClean b cs hcs
    have hct2 : c.tag ∉ b := by simpa using hct
    simp only [ElementList.stripTagsList, ihc, ihl]
    simp [hct2, optAppend_none, Element.withTail_self]

end

theorem Element.stripTags_idem (b : List String) (e : Element) :
    Element.stripTags b (Element.stripTags b e) = Element.stripTags b e :=
  Element.stripTags_of_innerClean b _ (Element.stripTags_innerClean b e)

theorem listFilter_idem {α : Type} (p : α → Bool) (l : List α) :
    (l.filter p).filter p = l.filter p := by
  induction l with
  | nil => rfl
  | cons x xs ih =>
    by_cases hx : p x <;> simp [List.filter_cons, hx, ih]

mutual

theorem Element.stripAttrs_idem (b : List String) :
    ∀ (e : Element), Element.stripAttrs b (Element.stripAttrs b e) = Element.stripAttrs b e
  | .mk t a tx cs tl => by
    have hcs := ElementList.stripAttrsList_idem b cs
    simp [Element.stripAttrs, hcs, listFilter_idem]

theorem ElementList.stripAttrsList_idem (b : List String) :
    ∀ (cs : ElementList),
      ElementList.stripAttrsList b (ElementList.stripAttrsList b cs) =
        ElementList.stripAttrsList b cs
  | .nil => by rfl
  | .cons c cs => by
    simp [ElementList.stripAttrsList, Element.stripAttrs_idem b c,
      ElementList.stripAttrsList_idem b cs]

end

mutual

theorem Element.stripAttrs_innerClean (bt ba : List String) :
    ∀ (e : Element), (Element.stripAttrs ba e).innerClean bt = e.innerClean bt
  | .mk t a tx cs tl => by
    have hcs := ElementList.stripAttrsList_allClean bt ba cs
    simp [Element.stripAttrs, Element.innerClean, hcs]

theorem ElementList.stripAttrsList_allClean (bt ba : List String) :
    ∀ (cs : ElementList), (ElementList.stripAttrsList ba cs).allClean bt = cs.allClean bt
  | .nil => by rfl
  | .cons c cs => by
    simp [ElementList.stripAttrsList, ElementList.allClean, Element.stripAttrs_tag,
      Element.stripAttrs_innerClean bt ba c, ElementList.stripAttrsList_allClean bt ba cs]

end

/-- C8: the sanitization step — unwrap banned tags, then delete banned
attributes, exactly as `_import` performs it (with its emptiness guards)
— is idempotent: applying it twice to any markup subtree with any
banned-tag and banned-attribute lists yields the same tree as applying
it once. -/
theorem c8_sanitize_idempotent :
    ∀ (ts as : List String) (e : Element),
      sanitizeElem ts as (sanitizeElem ts as e) = sanitizeElem ts as e := by
  intro ts as e
  unfold sanitizeElem
  by_cases hts : ts.isEmpty <;> by_cases has : as.isEmpty <;> simp [hts, has]
  · exact Element.stripAttrs_idem as e
  · exact Element.stripTags_idem ts e
  · have h2 : (Element.stripAttrs as (Element.stripTags ts e)).innerClean ts = true := by
      rw [Element.stripAttrs_innerClean]
      exact Element.stripTags_innerClean ts e
    rw [Element.stripTags_of_innerClean ts _ h2, Element.stripAttrs_idem]
